import Mathlib

/-!
Verification of the Umaplay career-automation loop.

This file is a shallow embedding, in Lean 4, of the decision logic of the
Umaplay repository:

* `core/actions/career_loop_types.py` (`SupportCardInfo`, `CareerLoopState`),
* `core/actions/support_select_flow.py` (`SupportSelectFlow`),
* `core/agent_career_loop.py` (`AgentCareerLoop`),
* `core/controllers/adb.py` (`ADBController._adb_command`, `screenshot`),
* `core/controllers/window_utils.py` (`get_windows_with_title`, `find_window`).

I/O boundaries (YOLO detections, OCR text, ADB subprocess results, the
process-wide abort flag, the injected training agent) are modelled as oracle
inputs consumed in program order, so every definition is an executable
function of its oracle.  Exceptions are modelled by explicit outcome types:
`KeyboardInterrupt` (the only exception allowed to cross flow boundaries)
is a distinguished constructor, everything else that the Python code catches
with `except Exception` is a separate constructor.

Python floats that only ever arise as ratios of small integers (the fuzzy
string-similarity scores) are represented exactly: executable code carries
the numerator/denominator pair and compares by cross-multiplication, and the
specification-level function `fuzzyScore` packages the same value as a
rational number.
-/

namespace Umaplay

/-! ### String helpers (Python `str.lower`, `str.strip`, `in`)

The embedding works on `String.data` character lists throughout because the
byte-position based `String` functions of the core library do not reduce
inside the kernel.  `Char.toLower`/`Char.isWhitespace` agree with Python's
`str.lower`/`str.strip` on the ASCII text the game OCR produces. -/

/-- Python `str.lower` (ASCII). -/
def strLower (s : String) : String := ⟨s.data.map Char.toLower⟩

/-- Python `str.strip`: drop whitespace from both ends. -/
def strStrip (s : String) : String :=
  ⟨((s.data.dropWhile Char.isWhitespace).reverse.dropWhile Char.isWhitespace).reverse⟩

/-- Python `needle in hay` on lists of characters: `needle` occurs contiguously
in `hay`. -/
def listContains (hay needle : List Char) : Bool :=
  match hay with
  | [] => needle = []
  | _ :: t => needle.isPrefixOf hay || listContains t needle

/-- Python `needle in hay` for strings. -/
def strContains (hay needle : String) : Bool :=
  listContains hay.data needle.data

/-! ### `SupportCardInfo` (`core/actions/career_loop_types.py`) -/

/-- Bounding box `(x1, y1, x2, y2)` as produced by YOLO detections. -/
abbrev XYXY := Int × Int × Int × Int

/-- Data extracted from one support-card container
(`career_loop_types.SupportCardInfo`); the opaque `container_detection`
dict is dropped because no claim inspects it. -/
structure SupportCardInfo where
  name : String
  level : Int
  xyxy : XYXY
  deriving DecidableEq, Repr

/-- Translation of `SupportCardInfo.matches_criteria`: exact level equality
and case-insensitive string equality of the names
(`self.level == target_level and self.name.lower() == target_name.lower()`). -/
def SupportCardInfo.matchesCriteria (c : SupportCardInfo)
    (targetName : String) (targetLevel : Int) : Bool :=
  c.level == targetLevel && strLower c.name == strLower targetName

/-! ### Fuzzy string similarity

Modelled from the spec: the source file `core/utils/text.py` that defines
`fuzzy_ratio` is not part of the provided sources; the spec describes it as
"a normalized string-similarity score in [0,1] used to tolerate OCR noise
when matching expected text".  We model it as the classic similarity score
`2*M/(|a|+|b|)` where `M` is the length of a longest common subsequence of
the two strings (two empty strings score 1). -/

/-- One row-update step of the longest-common-subsequence dynamic program:
given the previous row `prev` (indexed by positions of `b`, length
`|b| + 1`) and the current character `ca` of `a`, produce the tail of the
next row.  `cur` is the value just computed to the left. -/
def lcsRow (ca : Char) : List Char → List Nat → Nat → List Nat
  | cb :: bs, pj :: rest, cur =>
    let pj1 := rest.headD 0
    let v := if ca = cb then pj + 1 else max cur pj1
    v :: lcsRow ca bs rest v
  | _, _, _ => []

/-- Length of a longest common subsequence of `a` and `b`, by the standard
row-by-row dynamic program. -/
def lcsLen (a b : List Char) : Nat :=
  (a.foldl (fun prev ca => 0 :: lcsRow ca b prev 0)
    (List.replicate (b.length + 1) 0)).getLastD 0

/-- Numerator of the fuzzy similarity score of two strings (the pair
`scoreNum/scoreDen` represents the score exactly; the two-empty-strings
case is pinned to `1/1`). -/
def scoreNum (a b : String) : Nat :=
  if a.data = [] ∧ b.data = [] then 1 else 2 * lcsLen a.data b.data

/-- Denominator of the fuzzy similarity score of two strings. -/
def scoreDen (a b : String) : Nat :=
  if a.data = [] ∧ b.data = [] then 1 else a.data.length + b.data.length

/-- Modelled from the spec: the fuzzy string-similarity score computed by
`core/utils/text.fuzzy_ratio` (source file absent from the provided tree),
"a normalized string-similarity score in [0,1] used to tolerate OCR noise",
as an exact rational. -/
def fuzzyScore (a b : String) : ℚ :=
  (scoreNum a b : ℚ) / (scoreDen a b)

/-- The denominator of a fuzzy score is positive. -/
theorem scoreDen_pos (a b : String) : 0 < scoreDen a b := by
  unfold scoreDen
  split
  · exact Nat.one_pos
  · rename_i h
    rcases Decidable.not_and_iff_or_not.mp h with ha | hb
    · have : a.data.length ≠ 0 := fun hl => ha (List.length_eq_zero.mp hl)
      omega
    · have : b.data.length ≠ 0 := fun hl => hb (List.length_eq_zero.mp hl)
      omega

/-- Cross-multiplication test for `fuzzyScore a b ≥ 7/10`, the executable
form of the `0.70` threshold comparison. -/
def scoreGe70 (n d : Nat) : Bool := 7 * d ≤ 10 * n

/-- Cross-multiplication test for `n1/d1 < n2/d2` (used for
`ratio > best_ratio` with the arguments swapped). -/
def scoreLtScore (n1 d1 n2 d2 : Nat) : Bool := n1 * d2 < n2 * d1

/-- Bridge between the executable threshold test and the rational one. -/
theorem scoreGe70_iff (a b : String) :
    scoreGe70 (scoreNum a b) (scoreDen a b) = true ↔ fuzzyScore a b ≥ 7/10 := by
  have hd : (0 : ℚ) < (scoreDen a b : ℚ) := by exact_mod_cast scoreDen_pos a b
  rw [fuzzyScore, ge_iff_le, div_le_div_iff₀ (by norm_num) hd, scoreGe70]
  rw [decide_eq_true_eq]
  constructor
  · intro h
    calc (7 : ℚ) * (scoreDen a b : ℚ) = ((7 * scoreDen a b : ℕ) : ℚ) := by push_cast; ring
    _ ≤ ((10 * scoreNum a b : ℕ) : ℚ) := by exact_mod_cast h
    _ = (scoreNum a b : ℚ) * 10 := by push_cast; ring
  · intro h
    have : ((7 * scoreDen a b : ℕ) : ℚ) ≤ ((10 * scoreNum a b : ℕ) : ℚ) := by
      push_cast
      linarith
    exact_mod_cast this

/-- Bridge between the executable score comparison and the rational one. -/
theorem scoreLtScore_iff (a b c d : String) :
    scoreLtScore (scoreNum a b) (scoreDen a b) (scoreNum c d) (scoreDen c d) = true ↔
      fuzzyScore a b < fuzzyScore c d := by
  have hab : (0 : ℚ) < (scoreDen a b : ℚ) := by exact_mod_cast scoreDen_pos a b
  have hcd : (0 : ℚ) < (scoreDen c d : ℚ) := by exact_mod_cast scoreDen_pos c d
  rw [fuzzyScore, fuzzyScore, div_lt_div_iff₀ hab hcd, scoreLtScore]
  rw [decide_eq_true_eq]
  constructor
  · intro h
    have : ((scoreNum a b * scoreDen c d : ℕ) : ℚ) < ((scoreNum c d * scoreDen a b : ℕ) : ℚ) := by
      exact_mod_cast h
    push_cast at this
    linarith
  · intro h
    have : ((scoreNum a b * scoreDen c d : ℕ) : ℚ) < ((scoreNum c d * scoreDen a b : ℕ) : ℚ) := by
      push_cast
      linarith
    exact_mod_cast this

/-! ### `SupportSelectFlow._find_optimal_support`
(`core/actions/support_select_flow.py`, lines 448-508) -/

/-- The preference configuration of a `SupportSelectFlow`
(`preferred_support`, `preferred_level`). -/
structure SupportPref where
  preferredSupport : String
  preferredLevel : Int
  deriving DecidableEq, Repr

/-- A card qualifies when its level equals the preferred level and its fuzzy
name score against the preferred name reaches the `0.70` threshold used by
`_find_optimal_support`. -/
def qualifies (p : SupportPref) (c : SupportCardInfo) : Prop :=
  c.level = p.preferredLevel ∧ fuzzyScore c.name p.preferredSupport ≥ 7/10

instance (p : SupportPref) (c : SupportCardInfo) : Decidable (qualifies p c) :=
  decidable_of_iff
    (c.level = p.preferredLevel ∧
      scoreGe70 (scoreNum c.name p.preferredSupport) (scoreDen c.name p.preferredSupport) = true)
    (by rw [scoreGe70_iff]; exact Iff.rfl)

/-- Loop body of `_find_optimal_support`: skip cards at the wrong level,
otherwise keep the card when its score clears the threshold and strictly
beats the best score so far (`ratio >= fuzzy_threshold and ratio > best_ratio`).
The accumulator carries `best_match` and `best_ratio` as an exact
numerator/denominator pair, initially `0.0 = 0/1`. -/
def findOptimalStep (p : SupportPref)
    (acc : Option SupportCardInfo × (Nat × Nat)) (card : SupportCardInfo) :
    Option SupportCardInfo × (Nat × Nat) :=
  if card.level ≠ p.preferredLevel then acc
  else
    let n := scoreNum card.name p.preferredSupport
    let d := scoreDen card.name p.preferredSupport
    if scoreGe70 n d && scoreLtScore acc.2.1 acc.2.2 n d then (some card, (n, d)) else acc

/-- Translation of `SupportSelectFlow._find_optimal_support`: `None` for an
empty list, else a single pass keeping the best-scoring card whose level
matches exactly and whose fuzzy score is at least `0.70`. -/
def findOptimalSupport (p : SupportPref) (cards : List SupportCardInfo) :
    Option SupportCardInfo :=
  if cards = [] then none
  else (cards.foldl (findOptimalStep p) (none, (0, 1))).1

/-- Invariant maintained by the `_find_optimal_support` loop over the cards
scanned so far: either no qualifying card has been seen (accumulator still
`(None, 0.0)`), or the accumulator holds a seen qualifying card whose score
dominates every qualifying card seen so far. -/
def bestInv (p : SupportPref) (seen : List SupportCardInfo)
    (acc : Option SupportCardInfo × (Nat × Nat)) : Prop :=
  (acc.1 = none ∧ acc.2 = (0, 1) ∧ ∀ c ∈ seen, ¬ qualifies p c) ∨
  (∃ c, acc.1 = some c ∧
    acc.2 = (scoreNum c.name p.preferredSupport, scoreDen c.name p.preferredSupport) ∧
    qualifies p c ∧ c ∈ seen ∧
    ∀ c' ∈ seen, qualifies p c' →
      fuzzyScore c'.name p.preferredSupport ≤ fuzzyScore c.name p.preferredSupport)

/-- A qualifying card has a positive score numerator. -/
theorem qualifies_num_pos (p : SupportPref) (c : SupportCardInfo)
    (h : qualifies p c) : 0 < scoreNum c.name p.preferredSupport := by
  have h70 := (scoreGe70_iff c.name p.preferredSupport).mpr h.2
  have hd := scoreDen_pos c.name p.preferredSupport
  simp only [scoreGe70, decide_eq_true_eq] at h70
  omega

/-- One step of the loop preserves the invariant. -/
theorem bestInv_step (p : SupportPref) (seen : List SupportCardInfo)
    (acc : Option SupportCardInfo × (Nat × Nat)) (card : SupportCardInfo)
    (h : bestInv p seen acc) :
    bestInv p (seen ++ [card]) (findOptimalStep p acc card) := by
  unfold findOptimalStep
  by_cases hlvl : card.level ≠ p.preferredLevel
  · rw [if_pos hlvl]
    have hnq : ¬ qualifies p card := fun hq => hlvl hq.1
    rcases h with ⟨h1, h2, h3⟩ | ⟨c, h1, h2, h3, h4, h5⟩
    · exact Or.inl ⟨h1, h2, by
        intro c hc
        rcases List.mem_append.mp hc with hc | hc
        · exact h3 c hc
        · rw [List.mem_singleton.mp hc]; exact hnq⟩
    · refine Or.inr ⟨c, h1, h2, h3, List.mem_append_left _ h4, ?_⟩
      intro c' hc' hq'
      rcases List.mem_append.mp hc' with hc' | hc'
      · exact h5 c' hc' hq'
      · rw [List.mem_singleton.mp hc'] at hq'; exact absurd hq' hnq
  · rw [if_neg hlvl]
    set n := scoreNum card.name p.preferredSupport with hn
    set d := scoreDen card.name p.preferredSupport with hd
    push_neg at hlvl
    by_cases hcond : (scoreGe70 n d && scoreLtScore acc.2.1 acc.2.2 n d) = true
    · rw [if_pos hcond]
      have hge : scoreGe70 n d = true := (Bool.and_eq_true _ _ ▸ hcond).1
      have hq : qualifies p card := ⟨hlvl, (scoreGe70_iff _ _).mp hge⟩
      refine Or.inr ⟨card, rfl, rfl, hq, List.mem_append_right _ (List.mem_singleton.mpr rfl), ?_⟩
      intro c' hc' hq'
      rcases List.mem_append.mp hc' with hc' | hc'
      · have hlt : scoreLtScore acc.2.1 acc.2.2 n d = true := (Bool.and_eq_true _ _ ▸ hcond).2
        rcases h with ⟨_, h2, h3⟩ | ⟨c, _, h2, _, _, h5⟩
        · exact absurd hq' (h3 c' hc')
        · have hblt : fuzzyScore c.name p.preferredSupport <
              fuzzyScore card.name p.preferredSupport := by
            rw [← scoreLtScore_iff]
            rw [h2] at hlt
            exact hlt
          exact le_of_lt (lt_of_le_of_lt (h5 c' hc' hq') hblt)
      · rw [List.mem_singleton.mp hc']
    · rw [if_neg hcond]
      rcases h with ⟨h1, h2, h3⟩ | ⟨c, h1, h2, h3, h4, h5⟩
      · refine Or.inl ⟨h1, h2, ?_⟩
        intro c' hc'
        rcases List.mem_append.mp hc' with hc' | hc'
        · exact h3 c' hc'
        · rw [List.mem_singleton.mp hc']
          intro hq
          apply hcond
          have hge : scoreGe70 n d = true := (scoreGe70_iff _ _).mpr hq.2
          have hpos : 0 < n := qualifies_num_pos p card hq
          have hdpos : 0 < d := scoreDen_pos _ _
          rw [h2]
          simp only [hge, Bool.true_and, scoreLtScore, decide_eq_true_eq]
          simpa using hpos
      · refine Or.inr ⟨c, h1, h2, h3, List.mem_append_left _ h4, ?_⟩
        intro c' hc' hq'
        rcases List.mem_append.mp hc' with hc' | hc'
        · exact h5 c' hc' hq'
        · rw [List.mem_singleton.mp hc'] at hq' ⊢
          have hge : scoreGe70 n d = true := (scoreGe70_iff _ _).mpr hq'.2
          have hnlt : scoreLtScore acc.2.1 acc.2.2 n d = false := by
            cases hv : scoreLtScore acc.2.1 acc.2.2 n d
            · rfl
            · exact absurd (by simp [hge, hv]) hcond
          rw [h2] at hnlt
          have := (scoreLtScore_iff c.name p.preferredSupport
            card.name p.preferredSupport).not.mp (by simp [hnlt])
          exact not_lt.mp this

/-- Folding the loop body over any suffix preserves the invariant. -/
theorem bestInv_foldl (p : SupportPref) (cards : List SupportCardInfo) :
    ∀ (seen : List SupportCardInfo) (acc : Option SupportCardInfo × (Nat × Nat)),
      bestInv p seen acc →
      bestInv p (seen ++ cards) (cards.foldl (findOptimalStep p) acc) := by
  induction cards with
  | nil => intro seen acc h; simpa using h
  | cons card rest ih =>
    intro seen acc h
    have := ih (seen ++ [card]) (findOptimalStep p acc card) (bestInv_step p seen acc card h)
    simpa using this

/-- The invariant established for a full run of `_find_optimal_support`. -/
theorem findOptimalSupport_inv (p : SupportPref) (cards : List SupportCardInfo) :
    bestInv p cards (cards.foldl (findOptimalStep p) (none, (0, 1))) := by
  have := bestInv_foldl p cards [] (none, (0, 1))
    (Or.inl ⟨rfl, rfl, by intro c hc; cases hc⟩)
  simpa using this

/-! ### Concrete data for the spec's Riko scenario -/

/-- Default preference of the flows (`preferred_support="Riko Kashimoto"`,
`preferred_level=50`). -/
def rikoPref : SupportPref := ⟨"Riko Kashimoto", 50⟩

/-- The exactly-named scanned card of the spec scenario. -/
def rikoExact : SupportCardInfo := ⟨"Riko Kashimoto", 50, (0, 0, 0, 0)⟩

/-- The OCR-typo card of the spec scenario. -/
def rikoTypo : SupportCardInfo := ⟨"Riko Kashimotu", 50, (0, 0, 0, 0)⟩

/-- The unrelated card of the spec scenario. -/
def otherCard : SupportCardInfo := ⟨"Other", 50, (0, 0, 0, 0)⟩

/-- C6: `_find_optimal_support([])` returns no match; whenever the function
returns a card, that card is a scanned card whose level equals the preferred
level and whose fuzzy name score is at least `0.70`, maximal among all such
cards; it returns `None` exactly when no scanned card satisfies both
conditions; and on the three-card scenario `("Riko Kashimoto",50)`,
`("Riko Kashimotu",50)`, `("Other",50)` against preference
`("Riko Kashimoto",50)` the exactly-named card is selected. -/
theorem claim_C6_find_optimal_support :
    (∀ p : SupportPref, findOptimalSupport p [] = none)
    ∧ (∀ (p : SupportPref) (cards : List SupportCardInfo) (card : SupportCardInfo),
        findOptimalSupport p cards = some card →
          card ∈ cards ∧ qualifies p card ∧
          ∀ c ∈ cards, qualifies p c →
            fuzzyScore c.name p.preferredSupport ≤ fuzzyScore card.name p.preferredSupport)
    ∧ (∀ (p : SupportPref) (cards : List SupportCardInfo),
        findOptimalSupport p cards = none → ∀ c ∈ cards, ¬ qualifies p c)
    ∧ findOptimalSupport rikoPref [rikoExact, rikoTypo, otherCard] = some rikoExact := by
  refine ⟨fun p => rfl, ?_, ?_, by decide⟩
  · intro p cards card hsome
    unfold findOptimalSupport at hsome
    by_cases hnil : cards = []
    · rw [if_pos hnil] at hsome; cases hsome
    · rw [if_neg hnil] at hsome
      rcases findOptimalSupport_inv p cards with ⟨h1, _, _⟩ | ⟨c, h1, _, h3, h4, h5⟩
      · rw [h1] at hsome; cases hsome
      · rw [h1] at hsome
        cases hsome
        exact ⟨h4, h3, h5⟩
  · intro p cards hnone c hc hq
    unfold findOptimalSupport at hnone
    by_cases hnil : cards = []
    · rw [hnil] at hc; cases hc
    · rw [if_neg hnil] at hnone
      rcases findOptimalSupport_inv p cards with ⟨_, _, h3⟩ | ⟨c', h1, _, _, _, _⟩
      · exact h3 c hc hq
      · rw [h1] at hnone; cases hnone

/-- Witness for C6: the theorem applied at the scenario input. -/
theorem claim_C6_witness :
    findOptimalSupport rikoPref [] = none ∧ qualifies rikoPref rikoExact :=
  ⟨claim_C6_find_optimal_support.1 rikoPref,
    (claim_C6_find_optimal_support.2.1 rikoPref [rikoExact, rikoTypo, otherCard]
      rikoExact (by decide)).2.1⟩

/-- C7 counterexample: the claim asserts the name comparison of
`matches_criteria` is fuzzy, "tolerating small OCR-level differences between
the two names".  It is not: the one-character OCR typo
`"Riko Kashimotu"` has fuzzy score `13/14`, far above the program's own
`0.70` fuzzy threshold, yet `matches_criteria("Riko Kashimoto", 50)` rejects
the card even at the exactly matching level. -/
theorem claim_C7_counterexample :
    rikoTypo.matchesCriteria "Riko Kashimoto" 50 = false ∧
    rikoTypo.level = 50 ∧
    fuzzyScore "Riko Kashimotu" "Riko Kashimoto" ≥ 7/10 :=
  ⟨by decide, by decide, (scoreGe70_iff _ _).mp (by decide)⟩

/-- C7 (amended): `matches_criteria` is invariant under case changes of the
target name and of the card's own name, and it returns `True` exactly when
the level matches exactly and the two names are equal ignoring case (an
exact case-insensitive comparison, not a fuzzy one); in particular it is
`True` only when `card.level == target_level`. -/
theorem claim_C7_matches_criteria :
    (∀ (c : SupportCardInfo) (n n' : String) (l : Int),
        strLower n = strLower n' →
        c.matchesCriteria n l = c.matchesCriteria n' l)
    ∧ (∀ (c c' : SupportCardInfo) (n : String) (l : Int),
        strLower c.name = strLower c'.name → c.level = c'.level →
        c.matchesCriteria n l = c'.matchesCriteria n l)
    ∧ (∀ (c : SupportCardInfo) (n : String) (l : Int),
        c.matchesCriteria n l = true ↔ c.level = l ∧ strLower c.name = strLower n) := by
  refine ⟨?_, ?_, ?_⟩
  · intro c n n' l h
    simp [SupportCardInfo.matchesCriteria, h]
  · intro c c' n l hname hlvl
    simp [SupportCardInfo.matchesCriteria, hname, hlvl]
  · intro c n l
    simp [SupportCardInfo.matchesCriteria]

/-- Witness for C7: the amended theorem applied at concrete inputs,
including the spec's `"RIKO"`/`"riko"` case pair. -/
theorem claim_C7_witness :
    SupportCardInfo.matchesCriteria ⟨"RIKO", 50, (0, 0, 0, 0)⟩ "riko" 50
      = SupportCardInfo.matchesCriteria ⟨"RIKO", 50, (0, 0, 0, 0)⟩ "RIKO" 50 :=
  claim_C7_matches_criteria.1 ⟨"RIKO", 50, (0, 0, 0, 0)⟩ "riko" "RIKO" 50 (by decide)

/-! ### `SupportSelectFlow.select_optimal_support`
(`core/actions/support_select_flow.py`, lines 100-214)

The flow's I/O collaborators are an oracle: `scan k` is the card list
returned by the `k`-th call of `_scan_support_cards`, `refresh k` the boolean
result of the `k`-th `_refresh_support_list` click, `openPopup` the result of
`_open_support_popup`, `selectCard` the result of `_select_support_card`
(always `True` in the source absent controller exceptions, kept as an oracle
field for faithfulness). -/

/-- Oracle for one call of `select_optimal_support`. -/
structure SelectOracle where
  openPopup : Bool
  scan : Nat → List SupportCardInfo
  refresh : Nat → Bool
  selectCard : Bool

/-- Observable outcome of `select_optimal_support`: how many scans ran,
whether the Step-3 fallback scan was reached, and the returned boolean. -/
structure SelectTrace where
  scans : Nat
  fallbackScan : Bool
  result : Bool
  deriving DecidableEq, Repr

/-- Exit of the `for attempt in range(max_refresh_attempts + 1)` loop:
either a `return` statement fired inside the loop, or control reached the
Step-3 fallback (loop exhausted, or `break` after a failed refresh). -/
inductive SelectLoopExit where
  | returned (result : Bool) (scans : Nat)
  | toFallback (scans : Nat)
  deriving DecidableEq, Repr

/-- The refresh-attempt loop of `select_optimal_support`.  `remaining` is the
number of loop iterations left (initially `max_refresh_attempts + 1`),
`attempt` the current 0-based attempt index, `scans`/`refs` count oracle
calls made so far. -/
def selectLoop (p : SupportPref) (o : SelectOracle) (maxRefresh : Nat) :
    Nat → Nat → Nat → Nat → SelectLoopExit
  | 0, _, scans, _ => .toFallback scans
  | remaining + 1, attempt, scans, refs =>
    let cards := o.scan scans
    if cards = [] then
      if attempt < maxRefresh then
        if o.refresh refs then
          selectLoop p o maxRefresh remaining (attempt + 1) (scans + 1) (refs + 1)
        else .toFallback (scans + 1)
      else .returned false (scans + 1)
    else
      match findOptimalSupport p cards with
      | some _ => .returned o.selectCard (scans + 1)
      | none =>
        if attempt < maxRefresh then
          if o.refresh refs then
            selectLoop p o maxRefresh remaining (attempt + 1) (scans + 1) (refs + 1)
          else .toFallback (scans + 1)
        else selectLoop p o maxRefresh remaining (attempt + 1) (scans + 1) refs

/-- Translation of `SupportSelectFlow.select_optimal_support`: open the
popup, run the refresh-attempt loop, and on falling through run the Step-3
fallback (one more scan; fail on an empty scan, otherwise select the first
card). -/
def selectOptimalSupport (p : SupportPref) (o : SelectOracle) (maxRefresh : Nat) :
    SelectTrace :=
  if ¬ o.openPopup then ⟨0, false, false⟩
  else
    match selectLoop p o maxRefresh (maxRefresh + 1) 0 0 0 with
    | .returned b scans => ⟨scans, false, b⟩
    | .toFallback scans =>
      if o.scan scans = [] then ⟨scans + 1, true, false⟩
      else ⟨scans + 1, true, o.selectCard⟩

/-- The all-empty oracle of the spec scenario for C1: the popup opens, every
scan returns zero cards, every refresh click succeeds. -/
def allEmptyOracle : SelectOracle := ⟨true, fun _ => [], fun _ => true, true⟩

/-- C1 counterexample: with `max_refresh_attempts = 3`, zero cards on every
scan and always-successful refresh clicks, `select_optimal_support` performs
exactly 4 scans and returns `False` directly from the final loop attempt
(`return False` at line 155): the Step-3 fallback, and with it the "final
fallback scan" of the claim, is never reached, whereas the claim asserts the
4 scan attempts happen "before falling back" and that the overall failure is
decided by the final fallback scan. -/
theorem claim_C1_counterexample :
    selectOptimalSupport rikoPref allEmptyOracle 3 =
      ⟨4, false, false⟩ := rfl

/-- C1 (amended): with `max_refresh_attempts = 3`, a popup that opens, zero
cards on every scan and always-successful refresh clicks,
`select_optimal_support` performs exactly 4 scan attempts (the initial one
plus 3 refreshes) and returns overall failure directly from the final
attempt, without performing the Step-3 fallback scan. -/
theorem claim_C1_select_flow (p : SupportPref) (o : SelectOracle)
    (hopen : o.openPopup = true)
    (hscan : ∀ k, o.scan k = [])
    (hrefresh : ∀ k, o.refresh k = true) :
    selectOptimalSupport p o 3 = ⟨4, false, false⟩ := by
  simp [selectOptimalSupport, selectLoop, hopen, hscan, hrefresh]

/-- Witness for C1: the amended theorem applied to the all-empty oracle. -/
theorem claim_C1_witness :
    selectOptimalSupport rikoPref allEmptyOracle 3 = ⟨4, false, false⟩ :=
  claim_C1_select_flow rikoPref allEmptyOracle rfl (fun _ => rfl) (fun _ => rfl)

/-! ### The setup-screen loop of `AgentCareerLoop._execute_career_cycle`
(`core/agent_career_loop.py`, lines 692-741)

`detect k` tells whether the `career_add_friend_support` button is detected
on the `k`-th pass (1-based, matching `setup_screen_count` after its
increment).  The nav-flow fallback `handle_setup_screen` only affects
sleeps, not control flow, so it does not appear in the model. -/

/-- The `while setup_screen_count < max_setup_screens` loop: returns the
final `setup_screen_count` and whether the loop ended through the
detection `break`. -/
def setupLoopGo (detect : Nat → Bool) : Nat → Nat → Nat × Bool
  | 0, count => (count, false)
  | fuel + 1, count =>
    if detect (count + 1) then (count + 1, true)
    else setupLoopGo detect fuel (count + 1)

/-- The post-loop guard of `_execute_career_cycle`: the cycle proceeds to
support selection iff `setup_screen_count >= max_setup_screens` is false
after the loop. -/
def setupProceeds (detect : Nat → Bool) (maxScreens : Nat) : Bool :=
  decide ((setupLoopGo detect maxScreens 0).1 < maxScreens)

/-- If the loop never breaks, the final count equals the cap. -/
theorem setupLoopGo_false (detect : Nat → Bool) :
    ∀ (fuel count : Nat), (setupLoopGo detect fuel count).2 = false →
      (setupLoopGo detect fuel count).1 = count + fuel := by
  intro fuel
  induction fuel with
  | zero => intro count _; simp [setupLoopGo]
  | succ n ih =>
    intro count h
    by_cases hd : detect (count + 1) = true
    · simp [setupLoopGo, hd] at h
    · simp only [setupLoopGo, hd, if_false, Bool.false_eq_true] at h ⊢
      rw [ih (count + 1) h]
      omega

/-- If the loop breaks, it breaks at a detected pass within the window. -/
theorem setupLoopGo_true (detect : Nat → Bool) :
    ∀ (fuel count c : Nat), setupLoopGo detect fuel count = (c, true) →
      detect c = true ∧ count < c ∧ c ≤ count + fuel := by
  intro fuel
  induction fuel with
  | zero => intro count c h; simp [setupLoopGo] at h
  | succ n ih =>
    intro count c h
    by_cases hd : detect (count + 1) = true
    · simp only [setupLoopGo, hd, if_true] at h
      have hc : count + 1 = c := congrArg Prod.fst h
      subst hc
      exact ⟨hd, by omega, by omega⟩
    · simp only [setupLoopGo, hd, if_false, Bool.false_eq_true] at h
      obtain ⟨h1, h2, h3⟩ := ih (count + 1) c h
      exact ⟨h1, by omega, by omega⟩

/-- The loop stops no later than the first detected pass. -/
theorem setupLoopGo_le (detect : Nat → Bool) :
    ∀ (fuel count j : Nat), count < j → j ≤ count + fuel → detect j = true →
      (setupLoopGo detect fuel count).1 ≤ j := by
  intro fuel
  induction fuel with
  | zero => intro count j h1 h2 _; omega
  | succ n ih =>
    intro count j h1 h2 hj
    by_cases hd : detect (count + 1) = true
    · simp only [setupLoopGo, hd, if_true]
      omega
    · simp only [setupLoopGo, hd, if_false, Bool.false_eq_true]
      by_cases hje : j = count + 1
      · rw [hje] at hj; exact absurd hj hd
      · exact ih (count + 1) j (by omega) (by omega) hj

/-- If no pass before the last one detects and the last one does, the loop
ends by `break` exactly at the cap. -/
theorem setupLoopGo_last (detect : Nat → Bool) :
    ∀ (fuel count : Nat), 0 < fuel →
      (∀ j, count < j → j < count + fuel → detect j = false) →
      detect (count + fuel) = true →
      setupLoopGo detect fuel count = (count + fuel, true) := by
  intro fuel
  induction fuel with
  | zero => intro count h; omega
  | succ n ih =>
    intro count _ hnone hlast
    by_cases hn : n = 0
    · subst hn
      simp only [setupLoopGo]
      rw [if_pos (by simpa using hlast)]
    · have hd : detect (count + 1) = false := hnone (count + 1) (by omega) (by omega)
      simp only [setupLoopGo, hd, if_false, Bool.false_eq_true]
      have := ih (count + 1) (by omega)
        (fun j hj1 hj2 => hnone j (by omega) (by omega))
        (by rw [show count + 1 + n = count + (n + 1) by omega]; exact hlast)
      rw [this]
      congr 1
      omega

/-- C2 counterexample: the support-popup entry point is detected for the
first time on pass 10, the last pass within the hard cap of 10.  The loop
does terminate through the detection `break`, but the post-loop guard
`setup_screen_count >= max_setup_screens` still returns `False` for the
cycle, contradicting the claim that detection on any pass within the cap
(including the last) lets the cycle proceed, and that only exceeding the
cap without a detection is a hard failure. -/
theorem claim_C2_counterexample :
    setupLoopGo (fun k => k == 10) 10 0 = (10, true) ∧
    setupProceeds (fun k => k == 10) 10 = false := by
  constructor <;> rfl

/-- C2 (amended): the setup loop is bounded by the hard cap of 10 passes and
the cycle proceeds to support selection exactly when the support-popup entry
point is detected on one of the first 9 passes.  Detection on pass 10 still
terminates the loop through the `break`, but the cycle nevertheless returns
hard failure, as does exhausting the cap without any detection. -/
theorem claim_C2_setup_loop :
    (∀ detect : Nat → Bool,
      setupProceeds detect 10 = true ↔ ∃ k, 1 ≤ k ∧ k ≤ 9 ∧ detect k = true)
    ∧ (∀ detect : Nat → Bool,
        (∀ k, k ≤ 9 → detect k = false) → detect 10 = true →
        setupLoopGo detect 10 0 = (10, true) ∧ setupProceeds detect 10 = false) := by
  constructor
  · intro detect
    unfold setupProceeds
    rw [decide_eq_true_eq]
    constructor
    · intro h
      rcases hb : (setupLoopGo detect 10 0).2 with _ | _
      · have := setupLoopGo_false detect 10 0 hb
        omega
      · have hpair : setupLoopGo detect 10 0 = ((setupLoopGo detect 10 0).1, true) := by
          rw [← hb]
        obtain ⟨h1, h2, h3⟩ := setupLoopGo_true detect 10 0 _ hpair
        exact ⟨(setupLoopGo detect 10 0).1, by omega, by omega, h1⟩
    · rintro ⟨k, hk1, hk9, hk⟩
      have := setupLoopGo_le detect 10 0 k (by omega) (by omega) hk
      omega
  · intro detect hnone hlast
    have h10 : setupLoopGo detect 10 0 = (10, true) :=
      setupLoopGo_last detect 10 0 (by omega)
        (fun j hj1 hj2 => hnone j (by omega)) (by simpa using hlast)
    refine ⟨h10, ?_⟩
    unfold setupProceeds
    rw [h10]
    simp

/-- Witness for C2: the amended theorem applied to a detector that first
fires on pass 3 (cycle proceeds) and to one that first fires on pass 10. -/
theorem claim_C2_witness :
    setupProceeds (fun k => k == 3) 10 = true ∧
    setupProceeds (fun k => k == 10) 10 = false :=
  ⟨(claim_C2_setup_loop.1 (fun k => k == 3)).mpr ⟨3, by decide, by decide, by decide⟩,
    (claim_C2_setup_loop.2 (fun k => k == 10)
      (fun k hk => by
        have : k ≠ 10 := by omega
        simp [this])
      (by decide)).2⟩

/-! ### `ADBController._adb_command` (`core/controllers/adb.py`, lines 88-131)

Each `subprocess.run` attempt is an oracle value: either it raises
`TimeoutExpired` or completes with a return code.  (`FileNotFoundError`
would abort unconditionally and is outside the claims.)  The loop guard
`attempt < attempts - 1` is encoded through the remaining-fuel counter,
which equals `attempts - attempt` at every call. -/

/-- Outcome of one `subprocess.run` call inside `_adb_command`. -/
inductive AdbAttempt where
  | timeoutExpired
  | completes (returncode : Int)
  deriving DecidableEq, Repr

/-- How `_adb_command` ends: return the completed process, raise
`RuntimeError("ADB command failed ...")` on a nonzero exit code, raise
`RuntimeError("ADB command timed out ...")` on the final timeout, or the
(unreachable) fall-through `RuntimeError(... unknown error)`. -/
inductive AdbOutcome where
  | ok
  | errNonzero
  | errTimeout
  | errUnknown
  deriving DecidableEq, Repr

/-- Observable behaviour of one `_adb_command` call: its ending, the number
of `subprocess.run` attempts made, and the number of
`_auto_connect_device` reconnects performed between attempts. -/
structure AdbCmdTrace where
  outcome : AdbOutcome
  attemptsUsed : Nat
  reconnects : Nat
  deriving DecidableEq, Repr

/-- Reconnects happen only when a device is configured (`if self.device:`). -/
def reconUnit (hasDevice : Bool) : Nat := if hasDevice then 1 else 0

/-- The `for attempt in range(attempts)` loop of `_adb_command`.  `fuel` is
the number of attempts left (`attempts - idx`), so the Python guard
`attempt < attempts - 1` is `0 < fuel - 1`, i.e. `0 < fuel` after the
current attempt is peeled off. -/
def adbCommandGo (runs : Nat → AdbAttempt) (hasDevice : Bool) :
    Nat → Nat → Nat → AdbCmdTrace
  | 0, idx, recon => ⟨.errUnknown, idx, recon⟩
  | fuel + 1, idx, recon =>
    match runs idx with
    | .timeoutExpired =>
      if 0 < fuel then
        adbCommandGo runs hasDevice fuel (idx + 1) (recon + reconUnit hasDevice)
      else ⟨.errTimeout, idx + 1, recon⟩
    | .completes rc =>
      if rc ≠ 0 then ⟨.errNonzero, idx + 1, recon⟩ else ⟨.ok, idx + 1, recon⟩

/-- `attempts = max(1, int(retries) + 1)`. -/
def adbAttempts (retries : Int) : Nat := (max 1 (retries + 1)).toNat

/-- Translation of `ADBController._adb_command` as a function of the
per-attempt oracle, the `retries` parameter, and whether a device is
configured. -/
def adbCommand (runs : Nat → AdbAttempt) (hasDevice : Bool) (retries : Int) :
    AdbCmdTrace :=
  adbCommandGo runs hasDevice (adbAttempts retries) 0 0

/-- Skipping `j` leading timeouts: while fuel remains, each timeout advances
one attempt and performs one reconnect (when a device is configured). -/
theorem adbCommandGo_skip (runs : Nat → AdbAttempt) (hasDevice : Bool) :
    ∀ (j fuel idx recon : Nat), j < fuel →
      (∀ k, k < j → runs (idx + k) = .timeoutExpired) →
      adbCommandGo runs hasDevice fuel idx recon =
        adbCommandGo runs hasDevice (fuel - j) (idx + j)
          (recon + j * reconUnit hasDevice) := by
  intro j
  induction j with
  | zero => intro fuel idx recon _ _; simp
  | succ n ih =>
    intro fuel idx recon hlt hto
    match fuel, hlt with
    | f + 1, _ =>
      have h0 : runs idx = .timeoutExpired := by simpa using hto 0 (by omega)
      have hf : 0 < f := by omega
      simp only [adbCommandGo, h0, hf, if_pos]
      rw [ih f (idx + 1) (recon + reconUnit hasDevice) (by omega)
        (fun k hk => by
          rw [show idx + 1 + k = idx + (k + 1) from by omega]
          exact hto (k + 1) (by omega))]
      congr 1
      · omega
      · omega
      · ring

/-- C5 counterexample: with the default `retries = 2` (three attempts) a
command whose very first attempt completes with exit code 1 makes
`_adb_command` raise `RuntimeError` after a single attempt and zero
reconnects: a nonzero exit code is not retried at all, whereas the claim
asserts nonzero exits are retried up to the bounded retry count with
reconnects and that the hard error comes only after retries are
exhausted. -/
theorem claim_C5_counterexample :
    adbCommand (fun _ => .completes 1) true 2 = ⟨.errNonzero, 1, 0⟩ ∧
    adbAttempts 2 = 3 := ⟨rfl, rfl⟩

/-- C5 (amended): `_adb_command` retries only commands that time out, up to
`max(1, retries + 1)` attempts with a reconnect between attempts (when a
device is configured), and raises the timeout `RuntimeError` only after all
attempts time out; a command that completes with a nonzero exit code raises
`RuntimeError` immediately on that attempt without further retries; a
command completing with exit code 0 returns its completed-process result. -/
theorem claim_C5_adb_command (runs : Nat → AdbAttempt) (hasDevice : Bool)
    (retries : Int) :
    (∀ j, j < adbAttempts retries → (∀ k, k < j → runs k = .timeoutExpired) →
      runs j = .completes 0 →
      adbCommand runs hasDevice retries = ⟨.ok, j + 1, j * reconUnit hasDevice⟩)
    ∧ (∀ j rc, j < adbAttempts retries → (∀ k, k < j → runs k = .timeoutExpired) →
      rc ≠ 0 → runs j = .completes rc →
      adbCommand runs hasDevice retries =
        ⟨.errNonzero, j + 1, j * reconUnit hasDevice⟩)
    ∧ ((∀ k, k < adbAttempts retries → runs k = .timeoutExpired) →
      adbCommand runs hasDevice retries =
        ⟨.errTimeout, adbAttempts retries,
          (adbAttempts retries - 1) * reconUnit hasDevice⟩) := by
  have skip := adbCommandGo_skip runs hasDevice
  refine ⟨?_, ?_, ?_⟩
  · intro j hj hto hok
    unfold adbCommand
    rw [skip j (adbAttempts retries) 0 0 hj (fun k hk => by simpa using hto k hk)]
    rw [show adbAttempts retries - j = (adbAttempts retries - j - 1) + 1 from by omega]
    simp [adbCommandGo, hok]
  · intro j rc hj hto hrc hbad
    unfold adbCommand
    rw [skip j (adbAttempts retries) 0 0 hj (fun k hk => by simpa using hto k hk)]
    rw [show adbAttempts retries - j = (adbAttempts retries - j - 1) + 1 from by omega]
    simp [adbCommandGo, hbad, hrc]
  · intro hto
    have hpos : 0 < adbAttempts retries := by
      unfold adbAttempts
      omega
    unfold adbCommand
    rw [skip (adbAttempts retries - 1) (adbAttempts retries) 0 0 (by omega)
      (fun k hk => by simpa using hto k (by omega))]
    rw [show adbAttempts retries - (adbAttempts retries - 1) = 1 from by omega]
    have hlast : runs (adbAttempts retries - 1) = .timeoutExpired :=
      hto (adbAttempts retries - 1) (by omega)
    simp only [adbCommandGo, zero_add, hlast]
    rw [if_neg (by omega : ¬ (0 : Nat) < 0)]
    have harith : adbAttempts retries - 1 + 1 = adbAttempts retries := by omega
    rw [harith]

/-- Witness for C5: the amended theorem at `retries = 2`, a device
configured, and a command that times out once then completes with exit
code 0 — two attempts, one reconnect, success. -/
theorem claim_C5_witness :
    adbCommand (fun k => if k = 0 then .timeoutExpired else .completes 0) true 2 =
      ⟨.ok, 2, 1⟩ :=
  (claim_C5_adb_command (fun k => if k = 0 then .timeoutExpired else .completes 0)
    true 2).1 1 (by decide)
    (fun k hk => by
      have : k = 0 := by omega
      subst this
      rfl)
    rfl

/-! ### Window matching (`core/controllers/window_utils.py`, lines 291-347)

The Linux path of `get_windows_with_title` / `find_window`, with the window
list and the PID-to-process-name mapping (`psutil`) as inputs.  `pid = None`
or `pid = 0` windows are skipped by the process stage (`if not pid`), and a
failed `psutil.Process` lookup is `none`. -/

/-- A window record as the matching code sees it (`title`, `wm_class`,
optional owning PID). -/
structure PyWindow where
  title : String
  wm_class : String
  pid : Option Nat
  deriving DecidableEq, Repr

/-- Stage-one predicate of `get_windows_with_title`:
`w.title.strip() == title or w.wm_class.strip() == title`. -/
def exactTitleOrClass (title : String) (w : PyWindow) : Bool :=
  strStrip w.title == title || strStrip w.wm_class == title

/-- Stage-two predicate of `get_windows_with_title`:
`title.lower() in w.title.lower() or title.lower() in w.wm_class.lower()`. -/
def substrTitleOrClass (title : String) (w : PyWindow) : Bool :=
  strContains (strLower w.title) (strLower title) ||
    strContains (strLower w.wm_class) (strLower title)

/-- Translation of the fallback path of `get_windows_with_title`: the
combined exact title-or-class set, then the combined case-insensitive
substring title-or-class set. -/
def getWindowsWithTitle (allW : List PyWindow) (title : String) :
    List PyWindow :=
  if allW.filter (exactTitleOrClass title) ≠ [] then
    allW.filter (exactTitleOrClass title)
  else allW.filter (substrTitleOrClass title)

/-- Predicate of `_get_windows_by_process_name` (psutil branch): the window
has a truthy PID whose process name contains `procName`
(case-insensitively). -/
def procNameMatches (pidName : Nat → Option String) (procName : String)
    (w : PyWindow) : Bool :=
  match w.pid with
  | none => false
  | some p =>
    if p = 0 then false
    else
      match pidName p with
      | none => false
      | some nm => strContains (strLower nm) (strLower procName)

/-- Translation of `_get_windows_by_process_name` (pywinctl absent). -/
def getWindowsByProcessName (allW : List PyWindow)
    (pidName : Nat → Option String) (procName : String) : List PyWindow :=
  allW.filter (procNameMatches pidName procName)

/-- Translation of `find_window`: first element of `get_windows_with_title`,
else first element of `_get_windows_by_process_name`, else `None`. -/
def findWindow (allW : List PyWindow) (pidName : Nat → Option String)
    (title : String) : Option PyWindow :=
  match getWindowsWithTitle allW title with
  | w :: _ => some w
  | [] =>
    match getWindowsByProcessName allW pidName title with
    | w :: _ => some w
    | [] => none

/-- The matching policy exactly as the spec states it, for comparison with
the code: five ordered stages — exact title, exact window class,
case-insensitive substring title, window class equal to the expected
process short name, process-name substring via the PID mapping — where the
first non-empty match set wins and its first element is returned. -/
def specFindWindow (allW : List PyWindow) (pidName : Nat → Option String)
    (title procShortName : String) : Option PyWindow :=
  match allW.filter (fun w => w.title == title) with
  | w :: _ => some w
  | [] =>
    match allW.filter (fun w => w.wm_class == title) with
    | w :: _ => some w
    | [] =>
      match allW.filter (fun w => strContains (strLower w.title) (strLower title)) with
      | w :: _ => some w
      | [] =>
        match allW.filter (fun w => w.wm_class == procShortName) with
        | w :: _ => some w
        | [] =>
          match allW.filter (procNameMatches pidName procShortName) with
          | w :: _ => some w
          | [] => none

/-- The head of a filtered list is the first element satisfying the
predicate. -/
theorem filter_head_eq_find (p : PyWindow → Bool) (l : List PyWindow) :
    (l.filter p).head? = l.find? p := by
  induction l with
  | nil => rfl
  | cons a t ih =>
    by_cases h : p a = true
    · simp [List.filter_cons, List.find?_cons, h]
    · simp only [Bool.not_eq_true] at h
      simp [List.filter_cons, List.find?_cons, h, ih]

/-- C8 counterexample: with windows `[⟨title "X", class "T"⟩,
⟨title "T", class "Y"⟩]` and search string `"T"`, the spec's ordered policy
returns the exact-title window `⟨"T","Y"⟩` (stage 1 beats stage 2), but the
code builds one combined exact title-or-class set and returns its first
element `⟨"X","T"⟩`, which matches only by window class. -/
theorem claim_C8_counterexample :
    findWindow [⟨"X", "T", none⟩, ⟨"T", "Y", none⟩] (fun _ => none) "T" =
      some ⟨"X", "T", none⟩ ∧
    specFindWindow [⟨"X", "T", none⟩, ⟨"T", "Y", none⟩] (fun _ => none) "T" "T" =
      some ⟨"T", "Y", none⟩ ∧
    (⟨"X", "T", none⟩ : PyWindow) ≠ ⟨"T", "Y", none⟩ := by
  refine ⟨rfl, rfl, by decide⟩

/-- C8 (amended): `find_window` applies three ordered fallbacks — (1) the
combined set of windows whose stripped title or stripped window class
equals the searched string exactly, (2) the combined set of windows whose
title or window class contains the searched string case-insensitively,
(3) windows whose process name (via the PID-to-window mapping) contains the
searched string case-insensitively — where the first non-empty match set
wins, its first element (in enumeration order) is returned, and `None` is
returned when no stage matches. -/
theorem claim_C8_find_window (allW : List PyWindow)
    (pidName : Nat → Option String) (title : String) :
    findWindow allW pidName title =
      match allW.find? (exactTitleOrClass title) with
      | some w => some w
      | none =>
        match allW.find? (substrTitleOrClass title) with
        | some w => some w
        | none => allW.find? (procNameMatches pidName title) := by
  rw [← filter_head_eq_find (exactTitleOrClass title) allW,
    ← filter_head_eq_find (substrTitleOrClass title) allW,
    ← filter_head_eq_find (procNameMatches pidName title) allW]
  unfold findWindow getWindowsWithTitle getWindowsByProcessName
  rcases allW.filter (exactTitleOrClass title) with _ | ⟨w, rest⟩
  · rcases allW.filter (substrTitleOrClass title) with _ | ⟨w2, rest2⟩
    · rcases allW.filter (procNameMatches pidName title) with _ | ⟨w3, rest3⟩
      · rfl
      · rfl
    · rfl
  · rfl

/-- Witness for C8: the amended theorem applied at the two-window example. -/
theorem claim_C8_witness :
    findWindow [⟨"X", "T", none⟩, ⟨"T", "Y", none⟩] (fun _ => none) "T" =
      some ⟨"X", "T", none⟩ := by
  rw [claim_C8_find_window]
  rfl

/-! ### `screenshot` state update (`core/controllers/adb.py`, lines 327-345,
and identically `core/controllers/scrcpy_adb.py`, lines 402-447)

Only the `_last_origin`/`_last_bbox` update matters for C9: with an explicit
region the pair is a pure function of the region; with no region it is
`(0,0)` and `(0, 0, img.width, img.height)` of the frame captured by that
call. -/

/-- Dimensions of the frame decoded by one screenshot call. -/
structure Frame where
  width : Nat
  height : Nat
  deriving DecidableEq, Repr

/-- `(left, top, width, height)` capture region in pixels. -/
abbrev RegionXYWH := Int × Int × Int × Int

/-- The `_last_origin`/`_last_bbox` pair written by `screenshot(region)`
when the decoded frame is `frame`. -/
def screenshotState (region : Option RegionXYWH) (frame : Frame) :
    (Int × Int) × (Int × Int × Int × Int) :=
  match region with
  | some (l, t, w, h) => ((l, t), (l, t, w, h))
  | none => ((0, 0), (0, 0, (frame.width : Int), (frame.height : Int)))

/-- C9 counterexample: two consecutive `screenshot()` calls with the same
`region=None` argument leave different `_last_bbox` values when the two
captured frames differ in dimensions (e.g. the device rotates between
calls): the no-region case is not unconditionally idempotent. -/
theorem claim_C9_counterexample :
    screenshotState none ⟨1080, 1920⟩ ≠ screenshotState none ⟨1920, 1080⟩ := by
  decide

/-- C9 (amended): two consecutive `screenshot()` calls with the same
explicit region argument always leave the identical
`_last_origin`/`_last_bbox` pair, regardless of the captured frames; with
no region the pair is identical exactly when the two captured frames have
the same dimensions (in particular whenever the device resolution is
unchanged between the calls). -/
theorem claim_C9_screenshot_state :
    (∀ (r : RegionXYWH) (f1 f2 : Frame),
      screenshotState (some r) f1 = screenshotState (some r) f2)
    ∧ (∀ f1 f2 : Frame,
      screenshotState none f1 = screenshotState none f2 ↔
        f1.width = f2.width ∧ f1.height = f2.height) := by
  constructor
  · rintro ⟨l, t, w, h⟩ f1 f2
    rfl
  · intro f1 f2
    constructor
    · intro h
      simp only [screenshotState, Prod.mk.injEq, true_and] at h
      exact ⟨by exact_mod_cast h.1, by exact_mod_cast h.2⟩
    · rintro ⟨h1, h2⟩
      simp [screenshotState, h1, h2]

/-- Witness for C9: the amended theorem at a concrete region and pair of
frames of equal dimensions. -/
theorem claim_C9_witness :
    screenshotState (some (5, 6, 100, 200)) ⟨1080, 1920⟩ =
      screenshotState (some (5, 6, 100, 200)) ⟨1920, 1080⟩ ∧
    screenshotState none ⟨1080, 1920⟩ = screenshotState none ⟨1080, 1920⟩ :=
  ⟨claim_C9_screenshot_state.1 (5, 6, 100, 200) ⟨1080, 1920⟩ ⟨1920, 1080⟩,
    (claim_C9_screenshot_state.2 ⟨1080, 1920⟩ ⟨1080, 1920⟩).mpr ⟨rfl, rfl⟩⟩

/-! ### `CareerLoopState` and `AgentCareerLoop`
(`core/actions/career_loop_types.py`, lines 77-121;
`core/agent_career_loop.py`)

`current_career_start_time` is wall-clock data; only its presence
(`None` vs. a timestamp) is observable to the claims, tracked as
`has_start_time`.  Error-message strings are abbreviated constants (no claim
inspects their text).  The injected training agent, the OCR text of the
`career_step` region, the process-wide abort flag and the outcome of each
`_execute_career_cycle` attempt are oracle inputs. -/

/-- Translation of `CareerLoopState` with its dataclass defaults. -/
structure CareerLoopState where
  total_careers_completed : Nat
  has_start_time : Bool
  last_error : Option String
  consecutive_errors : Nat
  is_running : Bool
  deriving DecidableEq, Repr

/-- The dataclass default state. -/
def initCareerState : CareerLoopState := ⟨0, false, none, 0, false⟩

/-- Translation of `CareerLoopState.record_success`. -/
def CareerLoopState.record_success (st : CareerLoopState) : CareerLoopState :=
  { st with
    total_careers_completed := st.total_careers_completed + 1
    consecutive_errors := 0
    last_error := none
    has_start_time := false }

/-- Translation of `CareerLoopState.record_error`. -/
def CareerLoopState.record_error (st : CareerLoopState) (e : String) :
    CareerLoopState :=
  { st with
    consecutive_errors := st.consecutive_errors + 1
    last_error := some e
    has_start_time := false }

/-- How one blocking `agent_scenario.run()` call ends: normal completion, an
ordinary exception (caught by `except Exception`), or `KeyboardInterrupt`
(which `except Exception` does not catch in Python). -/
inductive AgentOutcome where
  | completes
  | raisesExc
  | raisesInterrupt
  deriving DecidableEq, Repr

/-- Oracle for one `_check_if_in_career` call: whether a `career_step`
detection exists, the raw OCR text of its region, and the outcome of the
`agent_scenario.run()` call made inside the check when the text indicates an
active career. -/
structure CheckOracle where
  stepDetected : Bool
  ocrText : String
  agentOutcome : AgentOutcome
  deriving DecidableEq, Repr

/-- How `_check_if_in_career` ends: a boolean return, or a propagating
`KeyboardInterrupt` (the method's `except Exception` does not catch it). -/
inductive CheckExit where
  | ret (inCareer : Bool)
  | interrupted
  deriving DecidableEq, Repr

/-- Observable behaviour of one `_check_if_in_career` call. -/
structure CheckResult where
  exit : CheckExit
  agentRuns : Nat
  resetCalled : Bool
  setRunning : Bool
  deriving DecidableEq, Repr

/-- Translation of `AgentCareerLoop._check_if_in_career`
(`agent_career_loop.py`, lines 943-1019): no `career_step` detection or no
OCR engine means not-in-career; text containing "complete" means
not-in-career; text containing "career" or "training" means active career:
reset agent state, set `state.is_running`, run the training agent to
completion, return `True`.  An ordinary exception from the agent is caught
by the method's `except Exception` and yields `False`. -/
def checkIfInCareer (ocrAvailable : Bool) (o : CheckOracle) : CheckResult :=
  if ¬ o.stepDetected then ⟨.ret false, 0, false, false⟩
  else if ¬ ocrAvailable then ⟨.ret false, 0, false, false⟩
  else
    if strContains (strLower (strStrip o.ocrText)) "complete" then
      ⟨.ret false, 0, false, false⟩
    else if strContains (strLower (strStrip o.ocrText)) "career" ||
        strContains (strLower (strStrip o.ocrText)) "training" then
      match o.agentOutcome with
      | .completes => ⟨.ret true, 1, true, true⟩
      | .raisesExc => ⟨.ret false, 1, true, true⟩
      | .raisesInterrupt => ⟨.interrupted, 1, true, true⟩
    else ⟨.ret false, 0, false, false⟩

/-- Outcome of one `_execute_career_cycle` attempt as seen by the recovery
wrapper: boolean success or failure, or a propagating exception. -/
inductive CycleOutcome where
  | success
  | failure
  | raisesExc
  | raisesInterrupt
  deriving DecidableEq, Repr

/-- How `_execute_career_cycle_with_recovery` ends: a boolean return, or a
re-raised `KeyboardInterrupt`. -/
inductive RecoveryExit where
  | ok (b : Bool)
  | interrupted
  deriving DecidableEq, Repr

/-- Observable behaviour of one `_execute_career_cycle_with_recovery` call. -/
structure RecoveryResult where
  exit : RecoveryExit
  state : CareerLoopState
  attemptsUsed : Nat
  deriving DecidableEq, Repr

/-- The `for attempt in range(max_retries)` loop of
`_execute_career_cycle_with_recovery` (`agent_career_loop.py`, lines
863-941).  `fuel` is the number of attempts left, so the guard
`attempt < max_retries - 1` is `0 < fuel` after the current attempt is
peeled off.  Each attempt first sets `current_career_start_time`
(`_execute_career_cycle`, line 671); `_return_to_main_menu` recovery between
attempts is best-effort and leaves the modelled state unchanged. -/
def recoveryGo (oc : Nat → CycleOutcome) :
    Nat → Nat → CareerLoopState → RecoveryResult
  | 0, idx, st => ⟨.ok false, st.record_error "Max retries exceeded", idx⟩
  | fuel + 1, idx, st =>
    let stc := { st with has_start_time := true }
    match oc idx with
    | .success => ⟨.ok true, stc.record_success, idx + 1⟩
    | .failure =>
      if 0 < fuel then recoveryGo oc fuel (idx + 1) stc
      else ⟨.ok false, stc.record_error "Career cycle failed", idx + 1⟩
    | .raisesExc =>
      if 0 < fuel then recoveryGo oc fuel (idx + 1) stc
      else ⟨.ok false, stc.record_error "Exception during career cycle", idx + 1⟩
    | .raisesInterrupt => ⟨.interrupted, stc, idx + 1⟩

/-- Translation of `AgentCareerLoop._execute_career_cycle_with_recovery`
with its `max_retries = 3`. -/
def executeWithRecovery (oc : Nat → CycleOutcome) (st : CareerLoopState) :
    RecoveryResult :=
  recoveryGo oc 3 0 st

/-- Configuration of `AgentCareerLoop.run`: the effective max-career bound
(`max_loops` override or `max_careers`), `error_threshold`, and whether an
OCR engine was injected. -/
structure RunConfig where
  maxCareers : Option Nat
  errorThreshold : Nat
  ocrAvailable : Bool
  deriving DecidableEq, Repr

/-- Oracle for one `run()` call: the `_check_if_in_career` oracle, the
outcome of the agent run and of `_handle_career_completion` in the
existing-career block, the abort flag at each successive
`abort_requested()` poll, and the outcome of each cycle attempt per loop
iteration. -/
structure RunOracle where
  check : CheckOracle
  existingAgent : AgentOutcome
  existingCompletion : Bool
  abortFlag : Nat → Bool
  cycleAttempt : Nat → Nat → CycleOutcome

/-- How the `while` loop of `run()` ends: a `break` or false condition (the
`try` body completes), a `KeyboardInterrupt` caught at line 1160, or the
model ran out of fuel while the loop was still going. -/
inductive LoopEnd where
  | broke
  | caughtInterrupt
  | fuelOut
  deriving DecidableEq, Repr

/-- Observable behaviour of the `while` loop of `run()`. -/
structure LoopResult where
  outcome : LoopEnd
  state : CareerLoopState
  cycleCalls : Nat
  deriving DecidableEq, Repr

/-- The max-career stop condition of `run()`:
`effective_max is not None and total_careers_completed >= effective_max`. -/
def maxReached (maxCareers : Option Nat) (st : CareerLoopState) : Bool :=
  match maxCareers with
  | none => false
  | some m => m ≤ st.total_careers_completed

/-- The `while self.state.is_running` loop of `run()`
(`agent_career_loop.py`, lines 1097-1158): check the running flag, poll the
abort flag, check the max-career bound, check the error threshold, run one
cycle with recovery, poll the abort flag again, iterate.  `pollIdx` numbers
successive `abort_requested()` polls, `iter` loop iterations, `calls` the
`_execute_career_cycle_with_recovery` calls made so far. -/
def runLoop (o : RunOracle) (cfg : RunConfig) :
    Nat → CareerLoopState → Nat → Nat → Nat → LoopResult
  | 0, st, _, _, calls => ⟨.fuelOut, st, calls⟩
  | fuel + 1, st, pollIdx, iter, calls =>
    if ¬ st.is_running then ⟨.broke, st, calls⟩
    else if o.abortFlag pollIdx then ⟨.broke, st, calls⟩
    else if maxReached cfg.maxCareers st then ⟨.broke, st, calls⟩
    else if cfg.errorThreshold ≤ st.consecutive_errors then ⟨.broke, st, calls⟩
    else
      match (executeWithRecovery (o.cycleAttempt iter) st).exit with
      | .interrupted =>
        ⟨.caughtInterrupt, (executeWithRecovery (o.cycleAttempt iter) st).state,
          calls + 1⟩
      | .ok _ =>
        if o.abortFlag (pollIdx + 1) then
          ⟨.broke, (executeWithRecovery (o.cycleAttempt iter) st).state, calls + 1⟩
        else
          runLoop o cfg fuel (executeWithRecovery (o.cycleAttempt iter) st).state
            (pollIdx + 2) (iter + 1) (calls + 1)

/-- How `run()` ends: a normal return, a propagating `KeyboardInterrupt`
(possible only from the pre-loop existing-career handling), or fuel
exhaustion of the model while the loop was still running. -/
inductive RunExit where
  | normal
  | raisedInterrupt
  | fuelExhausted
  deriving DecidableEq, Repr

/-- Observable behaviour of one `run()` call.  `resumeAgentRuns` counts the
`agent_scenario.run()` invocations made by `_check_if_in_career` and by the
existing-career block of `run()` itself, before any career cycle. -/
structure RunResult where
  exit : RunExit
  state : CareerLoopState
  resumeAgentRuns : Nat
  cycleCalls : Nat
  deriving DecidableEq, Repr

/-- The main loop of `run()` followed by its `finally` clause, which sets
`is_running := False` whenever the `try` body ends (normally or through a
caught exception).  Fuel exhaustion models "still looping", where no return
has happened yet, so the `finally` is not applied there. -/
def runMainPart (cfg : RunConfig) (o : RunOracle) (st : CareerLoopState)
    (pollIdx agentRuns fuel : Nat) : RunResult :=
  match runLoop o cfg fuel st pollIdx 0 0 with
  | ⟨.fuelOut, st', calls⟩ => ⟨.fuelExhausted, st', agentRuns, calls⟩
  | ⟨_, st', calls⟩ => ⟨.normal, { st' with is_running := false }, agentRuns, calls⟩

/-- Translation of `AgentCareerLoop.run()` (`agent_career_loop.py`, lines
1021-1180): run `_check_if_in_career`; when it reports an active career,
set the running flag, run the training agent again, handle completion or
record the error, re-raise `KeyboardInterrupt`, and return early if the
abort flag is up (setting the running flag false); otherwise set the running
flag and enter the main loop. -/
def runCareerLoop (cfg : RunConfig) (o : RunOracle) (st0 : CareerLoopState)
    (fuel : Nat) : RunResult :=
  let c := checkIfInCareer cfg.ocrAvailable o.check
  let st1 := if c.setRunning then { st0 with is_running := true } else st0
  match c.exit with
  | .interrupted => ⟨.raisedInterrupt, st1, c.agentRuns, 0⟩
  | .ret true =>
    let st2 := { st1 with is_running := true }
    match o.existingAgent with
    | .raisesInterrupt => ⟨.raisedInterrupt, st2, c.agentRuns + 1, 0⟩
    | .completes =>
      let st3 := if o.existingCompletion then st2.record_success
        else st2.record_error "Failed to handle career completion"
      if o.abortFlag 0 then
        ⟨.normal, { st3 with is_running := false }, c.agentRuns + 1, 0⟩
      else runMainPart cfg o { st3 with is_running := true } 1 (c.agentRuns + 1) fuel
    | .raisesExc =>
      let st3 := st2.record_error "Exception during in-career agent run"
      if o.abortFlag 0 then
        ⟨.normal, { st3 with is_running := false }, c.agentRuns + 1, 0⟩
      else runMainPart cfg o { st3 with is_running := true } 1 (c.agentRuns + 1) fuel
  | .ret false =>
    runMainPart cfg o { st1 with is_running := true } 0 c.agentRuns fuel

/-- `_check_if_in_career` can propagate an exception (the
`KeyboardInterrupt`) only out of its internal agent run. -/
theorem checkIfInCareer_interrupted (av : Bool) (o : CheckOracle)
    (h : (checkIfInCareer av o).exit = CheckExit.interrupted) :
    o.agentOutcome = .raisesInterrupt := by
  unfold checkIfInCareer at h
  split at h
  · simp at h
  · split at h
    · simp at h
    · split at h
      · simp at h
      · split at h
        · split at h
          · simp at h
          · simp at h
          · rename_i heq
            exact heq
        · simp at h

/-- The main loop plus `finally` never raises. -/
theorem runMainPart_no_raise (cfg : RunConfig) (o : RunOracle)
    (st : CareerLoopState) (pollIdx agentRuns fuel : Nat) :
    (runMainPart cfg o st pollIdx agentRuns fuel).exit ≠ .raisedInterrupt := by
  unfold runMainPart
  split
  · simp
  · simp

/-- When the main loop plus `finally` returns normally, the `finally` clause
has set the running flag to false. -/
theorem runMainPart_normal_not_running (cfg : RunConfig) (o : RunOracle)
    (st : CareerLoopState) (pollIdx agentRuns fuel : Nat)
    (h : (runMainPart cfg o st pollIdx agentRuns fuel).exit = .normal) :
    (runMainPart cfg o st pollIdx agentRuns fuel).state.is_running = false := by
  revert h
  unfold runMainPart
  split
  · intro h
    simp at h
  · intro _
    simp

/-- The main loop does not run the training agent directly: the
resume-agent-run counter passes through unchanged. -/
theorem runMainPart_agentRuns (cfg : RunConfig) (o : RunOracle)
    (st : CareerLoopState) (pollIdx agentRuns fuel : Nat) :
    (runMainPart cfg o st pollIdx agentRuns fuel).resumeAgentRuns = agentRuns := by
  unfold runMainPart
  split
  · simp
  · simp

/-- C3 counterexample: a `KeyboardInterrupt` raised by the very first cycle
attempt of the main loop is re-raised by the recovery wrapper but then
caught by `run()`'s own `except KeyboardInterrupt` handler (line 1160):
`run()` returns normally (exit `.normal`, not `.raisedInterrupt`), so the
interrupt does not propagate uncaught out of `AgentCareerLoop.run()`. -/
theorem claim_C3_counterexample :
    runCareerLoop ⟨none, 5, true⟩
      ⟨⟨false, "", .completes⟩, .completes, true, fun _ => false,
        fun _ _ => .raisesInterrupt⟩
      initCareerState 10 =
      ⟨.normal, ⟨0, true, none, 0, false⟩, 0, 1⟩ := rfl

/-- C3 (amended): the recovery wrapper re-raises a `KeyboardInterrupt` from
a career cycle immediately, without retrying and without touching the error
counters; but the interrupt propagates out of `run()` only from the
pre-loop existing-career handling — an interrupt during main-loop career
cycles is caught by `run()`, which then returns normally. -/
theorem claim_C3_interrupt_policy :
    (∀ (oc : Nat → CycleOutcome) (st : CareerLoopState),
      oc 0 = .raisesInterrupt →
      executeWithRecovery oc st =
        ⟨.interrupted, { st with has_start_time := true }, 1⟩)
    ∧ (∀ (cfg : RunConfig) (o : RunOracle) (st : CareerLoopState) (fuel : Nat),
      o.check.agentOutcome ≠ .raisesInterrupt →
      o.existingAgent ≠ .raisesInterrupt →
      (runCareerLoop cfg o st fuel).exit ≠ .raisedInterrupt) := by
  constructor
  · intro oc st h
    unfold executeWithRecovery
    simp [recoveryGo, h]
  · intro cfg o st fuel hcheck hex
    unfold runCareerLoop
    rcases hce : checkIfInCareer cfg.ocrAvailable o.check with ⟨cexit, runs, rc, sr⟩
    cases cexit with
    | interrupted =>
      exact absurd (checkIfInCareer_interrupted cfg.ocrAvailable o.check
        (by rw [hce])) hcheck
    | ret b =>
      cases b with
      | false => exact runMainPart_no_raise cfg o _ 0 runs fuel
      | true =>
        cases hea : o.existingAgent with
        | raisesInterrupt => exact absurd hea hex
        | completes =>
          by_cases hab : o.abortFlag 0 = true
          · simp [hab]
          · simp only [Bool.not_eq_true] at hab
            simp only [hab, Bool.false_eq_true, if_false]
            exact runMainPart_no_raise cfg o _ 1 (runs + 1) fuel
        | raisesExc =>
          by_cases hab : o.abortFlag 0 = true
          · simp [hab]
          · simp only [Bool.not_eq_true] at hab
            simp only [hab, Bool.false_eq_true, if_false]
            exact runMainPart_no_raise cfg o _ 1 (runs + 1) fuel

/-- Witness for C3: the wrapper part of the amended theorem applied to an
always-interrupting attempt oracle. -/
theorem claim_C3_witness :
    executeWithRecovery (fun _ => .raisesInterrupt) initCareerState =
      ⟨.interrupted, { initCareerState with has_start_time := true }, 1⟩ ∧
    (runCareerLoop ⟨none, 5, true⟩
      ⟨⟨false, "", .completes⟩, .completes, true, fun _ => false,
        fun _ _ => .raisesInterrupt⟩
      initCareerState 10).exit ≠ .raisedInterrupt :=
  ⟨claim_C3_interrupt_policy.1 (fun _ => .raisesInterrupt) initCareerState rfl,
    claim_C3_interrupt_policy.2 ⟨none, 5, true⟩
      ⟨⟨false, "", .completes⟩, .completes, true, fun _ => false,
        fun _ _ => .raisesInterrupt⟩
      initCareerState 10 (by decide) (by decide)⟩

/-- C4: whenever the stop conditions hold at the start of a main-loop
iteration — abort flag up, configured max-career count reached, or
consecutive errors at the threshold — the loop breaks at once, executing no
further career cycle and leaving the state untouched; and whenever `run()`
returns normally (every return path: loop exit by condition or `break`, the
early existing-career return, and the `except`-handled paths through the
`finally`), `state.is_running` is false afterwards. -/
theorem claim_C4_run_stop_conditions :
    (∀ (cfg : RunConfig) (o : RunOracle) (st : CareerLoopState)
        (fuel pollIdx iter calls : Nat),
      (o.abortFlag pollIdx = true ∨ maxReached cfg.maxCareers st = true ∨
        cfg.errorThreshold ≤ st.consecutive_errors) →
      runLoop o cfg (fuel + 1) st pollIdx iter calls = ⟨.broke, st, calls⟩)
    ∧ (∀ (cfg : RunConfig) (o : RunOracle) (st : CareerLoopState) (fuel : Nat),
      (runCareerLoop cfg o st fuel).exit = .normal →
      (runCareerLoop cfg o st fuel).state.is_running = false) := by
  constructor
  · intro cfg o st fuel pollIdx iter calls h
    by_cases hrun : st.is_running = true
    · rcases h with habort | hmax | herr
      · simp [runLoop, hrun, habort]
      · simp [runLoop, hrun, hmax, ite_self]
      · simp [runLoop, hrun, herr, ite_self]
    · simp only [Bool.not_eq_true] at hrun
      simp [runLoop, hrun]
  · intro cfg o st fuel h
    unfold runCareerLoop at h ⊢
    rcases hce : checkIfInCareer cfg.ocrAvailable o.check with ⟨cexit, runs, rc, sr⟩
    rw [hce] at h
    cases cexit with
    | interrupted => simp at h
    | ret b =>
      cases b with
      | false => exact runMainPart_normal_not_running cfg o _ 0 runs fuel h
      | true =>
        cases hea : o.existingAgent with
        | raisesInterrupt => simp [hea] at h
        | completes =>
          rw [hea] at h
          by_cases hab : o.abortFlag 0 = true
          · simp [hab]
          · simp only [Bool.not_eq_true] at hab
            simp only [hab, Bool.false_eq_true, if_false] at h ⊢
            exact runMainPart_normal_not_running cfg o _ 1 (runs + 1) fuel h
        | raisesExc =>
          rw [hea] at h
          by_cases hab : o.abortFlag 0 = true
          · simp [hab]
          · simp only [Bool.not_eq_true] at hab
            simp only [hab, Bool.false_eq_true, if_false] at h ⊢
            exact runMainPart_normal_not_running cfg o _ 1 (runs + 1) fuel h

/-- Witness for C4: an abort flag raised before the first iteration breaks
the loop without running a cycle, and that run returns with the running
flag down. -/
theorem claim_C4_witness :
    runLoop ⟨⟨false, "", .completes⟩, .completes, true, fun _ => true,
        fun _ _ => .success⟩ ⟨none, 5, true⟩ 5
        { initCareerState with is_running := true } 0 0 0 =
      ⟨.broke, { initCareerState with is_running := true }, 0⟩ ∧
    (runCareerLoop ⟨none, 5, true⟩
      ⟨⟨false, "", .completes⟩, .completes, true, fun _ => true,
        fun _ _ => .success⟩
      initCareerState 5).state.is_running = false :=
  ⟨claim_C4_run_stop_conditions.1 ⟨none, 5, true⟩
      ⟨⟨false, "", .completes⟩, .completes, true, fun _ => true,
        fun _ _ => .success⟩
      { initCareerState with is_running := true } 4 0 0 0 (Or.inl rfl),
    claim_C4_run_stop_conditions.2 ⟨none, 5, true⟩
      ⟨⟨false, "", .completes⟩, .completes, true, fun _ => true,
        fun _ _ => .success⟩
      initCareerState 5 rfl⟩

/-- C10: whenever `_check_if_in_career` detects an active career (a
`career_step` detection whose OCR text contains "career" or "training" and
not "complete") and the agent run completes, the check resets the agent's
transient state, sets the running flag, runs the training agent once to
completion, and returns `True`; and `run()` then invokes the training agent
a second time in its existing-career block, for a total of two resume-time
agent invocations before any career cycle. -/
theorem claim_C10_resume_runs_agent_twice
    (cfg : RunConfig) (o : RunOracle) (st : CareerLoopState) (fuel : Nat)
    (hocr : cfg.ocrAvailable = true)
    (hdet : o.check.stepDetected = true)
    (hnc : strContains (strLower (strStrip o.check.ocrText)) "complete" = false)
    (hcr : (strContains (strLower (strStrip o.check.ocrText)) "career" ||
      strContains (strLower (strStrip o.check.ocrText)) "training") = true)
    (hagent : o.check.agentOutcome = .completes) :
    checkIfInCareer cfg.ocrAvailable o.check = ⟨.ret true, 1, true, true⟩ ∧
    (runCareerLoop cfg o st fuel).resumeAgentRuns = 2 := by
  have hcheck : checkIfInCareer cfg.ocrAvailable o.check = ⟨.ret true, 1, true, true⟩ := by
    unfold checkIfInCareer
    rw [hocr, hdet, hnc, hcr, hagent]
    simp
  refine ⟨hcheck, ?_⟩
  unfold runCareerLoop
  rw [hcheck]
  cases hea : o.existingAgent with
  | raisesInterrupt => simp
  | completes =>
    by_cases hab : o.abortFlag 0 = true
    · simp [hab]
    · simp only [Bool.not_eq_true] at hab
      simp only [hab, Bool.false_eq_true, if_false]
      exact runMainPart_agentRuns cfg o _ 1 2 fuel
  | raisesExc =>
    by_cases hab : o.abortFlag 0 = true
    · simp [hab]
    · simp only [Bool.not_eq_true] at hab
      simp only [hab, Bool.false_eq_true, if_false]
      exact runMainPart_agentRuns cfg o _ 1 2 fuel

/-- Witness for C10: the theorem applied at a concrete resume oracle ("the
career_step region reads `Career`"). -/
theorem claim_C10_witness :
    (runCareerLoop ⟨none, 5, true⟩
      ⟨⟨true, "Career", .completes⟩, .completes, true, fun _ => false,
        fun _ _ => .success⟩
      initCareerState 3).resumeAgentRuns = 2 :=
  (claim_C10_resume_runs_agent_twice ⟨none, 5, true⟩
    ⟨⟨true, "Career", .completes⟩, .completes, true, fun _ => false,
      fun _ _ => .success⟩
    initCareerState 3 rfl rfl (by decide) (by decide) rfl).2

end Umaplay
